import Mathlib

/-!
Verification of the learning Ethernet switch `XlTlmEthSoftSw`
(src/3d_printer_line/3DPrinterLine_6Stations/XlTlmEthSoftSw.cxx).

The switch routes frames between `dNumPorts` ports.  Each transport call
(blocking `b_transport` or non-blocking `nb_transport_fw`) first learns the
frame's source-MAC fingerprint into the `dMacCache` table (asserting
consistency if the fingerprint is already bound), then either unicasts the
frame to the port bound to the destination fingerprint or floods it to all
ports except the ingress one.

Egress ports are external collaborators; they are modelled by oracle
functions: a blocking egress call may rewrite the frame's response status
(`bEnv : port → status → status`), a non-blocking egress call returns a
synchronisation result and may rewrite the status
(`nbEnv : port → status → result × status`).  Monitor-tap publications on
the analysis ports are recorded in an event trace.
-/

/-- TLM response statuses (`tlm_response_status` of IEEE 1666); the switch
only distinguishes `TLM_OK_RESPONSE` from the rest. -/
inductive TlmResponseStatus where
  | ok
  | incomplete
  | genericError
  | addressError
  | commandError
  | burstError
  | byteEnableError
deriving DecidableEq, Repr

/-- TLM synchronisation results (`tlm_sync_enum`): `TLM_ACCEPTED`,
`TLM_UPDATED`, `TLM_COMPLETED`. -/
inductive TlmSyncEnum where
  | accepted
  | updated
  | completed
deriving DecidableEq, Repr

/-- TLM protocol phases; the switch only ever writes `BEGIN_REQ`. -/
inductive TlmPhase where
  | uninitializedPhase
  | beginReq
  | endReq
  | beginResp
  | endResp
deriving DecidableEq, Repr

/-- A 6-byte MAC address (`unsigned char[6]`). -/
structure MacAddr where
  b0 : Fin 256
  b1 : Fin 256
  b2 : Fin 256
  b3 : Fin 256
  b4 : Fin 256
  b5 : Fin 256
deriving DecidableEq, Repr

/-- `hashMacAddr`: reinterpret the first 4 bytes as a little-endian 32-bit
integer, then add byte 4 and byte 5 with 32-bit wraparound. -/
def hashMacAddr (m : MacAddr) : Nat :=
  (m.b0.val + 256 * m.b1.val + 65536 * m.b2.val + 16777216 * m.b3.val
    + m.b4.val + m.b5.val) % 2 ^ 32

/-- An Ethernet frame header as seen by the switch: destination and source
MAC addresses (`EtherPacket::destAddr`, `EtherPacket::srcAddr`). -/
structure EtherPacket where
  destAddr : MacAddr
  srcAddr : MacAddr
deriving DecidableEq, Repr

/-- The MAC learning table `dMacCache : map<unsigned, unsigned>` from
fingerprint to port index, as an association list with unique keys (the
code inserts a key only when `find` missed). -/
abbrev MacCache := List (Nat × Nat)

/-- `dMacCache.find(hash)`: the port bound to a fingerprint, if any. -/
def macFind : MacCache → Nat → Option Nat
  | [], _ => none
  | (k, v) :: rest, h => if k = h then some v else macFind rest h

/-- The fatal assertion `assert( rxPortId == it->second )` in both transport
paths, surfaced as a distinguishable error. -/
inductive SwError where
  | inconsistentBinding (fingerprint oldPort newPort : Nat)
deriving DecidableEq, Repr

/-- Which transport path published a monitor event
(`XlTlmMonitorConfig::B_TRANSPORT` / `NB_TRANSPORT_FW`). -/
inductive TransportKind where
  | bTransport
  | nbTransportFw
deriving DecidableEq, Repr

/-- A monitor-tap publication: a write to `analysisRxPorts[port]` or
`analysisTxPorts[port]` tagged with the transport kind. -/
inductive MonitorEvent where
  | rxEvent (port : Nat) (kind : TransportKind)
  | txEvent (port : Nat) (kind : TransportKind)
deriving DecidableEq, Repr

/-- The switch state relevant to routing: the fixed port count, the MAC
learning table and the monitoring flag. -/
structure XlTlmEthSoftSw where
  dNumPorts : Nat
  dMacCache : MacCache
  isMonitoringEnabled : Bool
deriving DecidableEq, Repr

/-- Observable outcome of one `b_transport` call: the assertion error if the
source binding was inconsistent, the table afterwards, the egress ports
invoked (in call order), the frame's final response status, the published
monitor events, and whether `dBTransportLock.unlock()` was executed. -/
structure BTransportOut where
  error : Option SwError
  dMacCache : MacCache
  egressCalls : List Nat
  respStatus : TlmResponseStatus
  monitorEvents : List MonitorEvent
  lockReleased : Bool
deriving DecidableEq, Repr

/-- Outcome of the blocking flood loop. -/
structure BFloodOut where
  egressCalls : List Nat
  respStatus : TlmResponseStatus
  monitorEvents : List MonitorEvent
deriving DecidableEq, Repr

/-- The flood loop of `b_transport` (lines 182-206): for each port index `i`
other than the ingress port, publish a monitor event when enabled and invoke
the egress port's blocking transport; stop as soon as the frame's response
status is not `TLM_OK_RESPONSE`. -/
def bFloodLoop (bEnv : Nat → TlmResponseStatus → TlmResponseStatus) (mon : Bool)
    (rxPortId : Nat) : List Nat → TlmResponseStatus → BFloodOut
  | [], st => { egressCalls := [], respStatus := st, monitorEvents := [] }
  | i :: rest, st =>
    if i = rxPortId then
      bFloodLoop bEnv mon rxPortId rest st
    else
      let evs := if mon then [MonitorEvent.txEvent i TransportKind.bTransport] else []
      let st2 := bEnv i st
      if st2 ≠ TlmResponseStatus.ok then
        { egressCalls := [i], respStatus := st2, monitorEvents := evs }
      else
        let out := bFloodLoop bEnv mon rxPortId rest st2
        { egressCalls := i :: out.egressCalls, respStatus := out.respStatus,
          monitorEvents := evs ++ out.monitorEvents }

/-- The routing part of `b_transport` after source learning (lines 159-206):
unicast to the port bound to the destination fingerprint, otherwise flood.
The blocking unicast branch only prints to stdout under monitoring; it does
not write an analysis port. -/
def bRoute (sw : XlTlmEthSoftSw) (bEnv : Nat → TlmResponseStatus → TlmResponseStatus)
    (rxPortId : Nat) (packet : EtherPacket) (inStatus : TlmResponseStatus)
    (rxEvents : List MonitorEvent) (cache : MacCache) : BTransportOut :=
  match macFind cache (hashMacAddr packet.destAddr) with
  | some portId =>
    { error := none, dMacCache := cache, egressCalls := [portId],
      respStatus := bEnv portId inStatus, monitorEvents := rxEvents,
      lockReleased := true }
  | none =>
    let fl := bFloodLoop bEnv sw.isMonitoringEnabled rxPortId
      (List.range sw.dNumPorts) inStatus
    { error := none, dMacCache := cache, egressCalls := fl.egressCalls,
      respStatus := fl.respStatus, monitorEvents := rxEvents ++ fl.monitorEvents,
      lockReleased := true }

/-- `XlTlmEthSoftSw::b_transport` (lines 123-213): lock, publish an RX
monitor event when enabled, learn the source fingerprint (asserting that an
existing binding matches the ingress port), route by destination
fingerprint, unlock.  The fatal assertion aborts before any forwarding and
before the unlock. -/
def b_transport (sw : XlTlmEthSoftSw) (bEnv : Nat → TlmResponseStatus → TlmResponseStatus)
    (rxPortId : Nat) (packet : EtherPacket) (inStatus : TlmResponseStatus) :
    BTransportOut :=
  let rxEvents := if sw.isMonitoringEnabled then
    [MonitorEvent.rxEvent rxPortId TransportKind.bTransport] else []
  match macFind sw.dMacCache (hashMacAddr packet.srcAddr) with
  | some boundPort =>
    if rxPortId = boundPort then
      bRoute sw bEnv rxPortId packet inStatus rxEvents sw.dMacCache
    else
      { error := some (SwError.inconsistentBinding (hashMacAddr packet.srcAddr)
          boundPort rxPortId),
        dMacCache := sw.dMacCache, egressCalls := [], respStatus := inStatus,
        monitorEvents := rxEvents, lockReleased := false }
  | none =>
    bRoute sw bEnv rxPortId packet inStatus rxEvents
      ((hashMacAddr packet.srcAddr, rxPortId) :: sw.dMacCache)

/-- Observable outcome of one `nb_transport_fw` call: the returned
`tlm_sync_enum`, the assertion error if any, the table afterwards, the
egress calls made (port together with the phase passed), the frame's final
response status, and the published monitor events. -/
structure NbTransportOut where
  ret : TlmSyncEnum
  error : Option SwError
  dMacCache : MacCache
  egressCalls : List (Nat × TlmPhase)
  respStatus : TlmResponseStatus
  monitorEvents : List MonitorEvent
deriving DecidableEq, Repr

/-- Outcome of the non-blocking flood loop. -/
structure NbFloodOut where
  ret : TlmSyncEnum
  egressCalls : List (Nat × TlmPhase)
  respStatus : TlmResponseStatus
  monitorEvents : List MonitorEvent
deriving DecidableEq, Repr

/-- The flood loop of `nb_transport_fw` (lines 333-362): for each port index
`i` other than the ingress port, publish a monitor event when enabled, set
the phase to `BEGIN_REQ`, and invoke the egress port's non-blocking
transport; if the call does not return `TLM_COMPLETED`, record its result
and stop; if it leaves the frame's response status non-OK, stop with the
result accumulated so far. -/
def nbFloodLoop (nbEnv : Nat → TlmResponseStatus → TlmSyncEnum × TlmResponseStatus)
    (mon : Bool) (rxPortId : Nat) :
    List Nat → TlmResponseStatus → TlmSyncEnum → NbFloodOut
  | [], st, ret => { ret := ret, egressCalls := [], respStatus := st, monitorEvents := [] }
  | i :: rest, st, ret =>
    if i = rxPortId then
      nbFloodLoop nbEnv mon rxPortId rest st ret
    else
      let evs := if mon then [MonitorEvent.txEvent i TransportKind.nbTransportFw] else []
      let r := nbEnv i st
      if r.1 ≠ TlmSyncEnum.completed then
        { ret := r.1, egressCalls := [(i, TlmPhase.beginReq)], respStatus := r.2,
          monitorEvents := evs }
      else if r.2 ≠ TlmResponseStatus.ok then
        { ret := ret, egressCalls := [(i, TlmPhase.beginReq)], respStatus := r.2,
          monitorEvents := evs }
      else
        let out := nbFloodLoop nbEnv mon rxPortId rest r.2 ret
        { ret := out.ret, egressCalls := (i, TlmPhase.beginReq) :: out.egressCalls,
          respStatus := out.respStatus, monitorEvents := evs ++ out.monitorEvents }

/-- The routing part of `nb_transport_fw` after source learning
(lines 298-362): unicast with phase `BEGIN_REQ` to the port bound to the
destination fingerprint (publishing a TX monitor event when enabled),
otherwise flood.  At this point the frame's response status is
`TLM_OK_RESPONSE`, set at function entry. -/
def nbRoute (sw : XlTlmEthSoftSw)
    (nbEnv : Nat → TlmResponseStatus → TlmSyncEnum × TlmResponseStatus)
    (rxPortId : Nat) (packet : EtherPacket) (rxEvents : List MonitorEvent)
    (cache : MacCache) : NbTransportOut :=
  match macFind cache (hashMacAddr packet.destAddr) with
  | some portId =>
    let txEvents := if sw.isMonitoringEnabled then
      [MonitorEvent.txEvent portId TransportKind.nbTransportFw] else []
    let r := nbEnv portId TlmResponseStatus.ok
    { ret := r.1, error := none, dMacCache := cache,
      egressCalls := [(portId, TlmPhase.beginReq)], respStatus := r.2,
      monitorEvents := rxEvents ++ txEvents }
  | none =>
    let fl := nbFloodLoop nbEnv sw.isMonitoringEnabled rxPortId
      (List.range sw.dNumPorts) TlmResponseStatus.ok TlmSyncEnum.completed
    { ret := fl.ret, error := none, dMacCache := cache, egressCalls := fl.egressCalls,
      respStatus := fl.respStatus, monitorEvents := rxEvents ++ fl.monitorEvents }

/-- `XlTlmEthSoftSw::nb_transport_fw` (lines 239-364): set the frame's
response status to `TLM_OK_RESPONSE`, return `TLM_COMPLETED` immediately if
the `uvmc_xl_config` extension is attached, otherwise publish an RX monitor
event when enabled, learn the source fingerprint (with the same fatal
assertion as the blocking path), and route by destination fingerprint.
`hasConfigExtension` models `trans.get_extension(configExtension)` finding
the extension. -/
def nb_transport_fw (sw : XlTlmEthSoftSw)
    (nbEnv : Nat → TlmResponseStatus → TlmSyncEnum × TlmResponseStatus)
    (rxPortId : Nat) (packet : EtherPacket) (hasConfigExtension : Bool) :
    NbTransportOut :=
  if hasConfigExtension then
    { ret := TlmSyncEnum.completed, error := none, dMacCache := sw.dMacCache,
      egressCalls := [], respStatus := TlmResponseStatus.ok, monitorEvents := [] }
  else
    let rxEvents := if sw.isMonitoringEnabled then
      [MonitorEvent.rxEvent rxPortId TransportKind.nbTransportFw] else []
    match macFind sw.dMacCache (hashMacAddr packet.srcAddr) with
    | some boundPort =>
      if rxPortId = boundPort then
        nbRoute sw nbEnv rxPortId packet rxEvents sw.dMacCache
      else
        { ret := TlmSyncEnum.completed,
          error := some (SwError.inconsistentBinding (hashMacAddr packet.srcAddr)
            boundPort rxPortId),
          dMacCache := sw.dMacCache, egressCalls := [],
          respStatus := TlmResponseStatus.ok, monitorEvents := rxEvents }
    | none =>
      nbRoute sw nbEnv rxPortId packet rxEvents
        ((hashMacAddr packet.srcAddr, rxPortId) :: sw.dMacCache)

/-- When every egress port leaves the frame status OK, the blocking flood
loop visits every candidate port other than the ingress one, in list
order. -/
theorem bFloodLoop_allOk (bEnv : Nat → TlmResponseStatus → TlmResponseStatus)
    (mon : Bool) (rx : Nat) (hEnv : ∀ p s, bEnv p s = TlmResponseStatus.ok) :
    ∀ (l : List Nat) (st : TlmResponseStatus),
      (bFloodLoop bEnv mon rx l st).egressCalls
        = l.filter (fun p => decide (p ≠ rx)) := by
  intro l
  induction l with
  | nil => intro st; rfl
  | cons i rest ih =>
    intro st
    by_cases hi : i = rx
    · subst hi
      simp [bFloodLoop, ih]
    · simp [bFloodLoop, hi, hEnv, ih]

/-- When every egress port returns `TLM_COMPLETED` and leaves the status OK,
the non-blocking flood loop visits every candidate port other than the
ingress one with phase `BEGIN_REQ`, and returns its accumulated result
unchanged. -/
theorem nbFloodLoop_allOk
    (nbEnv : Nat → TlmResponseStatus → TlmSyncEnum × TlmResponseStatus)
    (mon : Bool) (rx : Nat)
    (hEnv : ∀ p s, nbEnv p s = (TlmSyncEnum.completed, TlmResponseStatus.ok)) :
    ∀ (l : List Nat) (st : TlmResponseStatus) (ret : TlmSyncEnum),
      (nbFloodLoop nbEnv mon rx l st ret).egressCalls
        = (l.filter (fun p => decide (p ≠ rx))).map (fun p => (p, TlmPhase.beginReq))
      ∧ (nbFloodLoop nbEnv mon rx l st ret).ret = ret := by
  intro l
  induction l with
  | nil => intro st ret; exact ⟨rfl, rfl⟩
  | cons i rest ih =>
    intro st ret
    by_cases hi : i = rx
    · subst hi
      simpa [nbFloodLoop] using ih st ret
    · have h := ih TlmResponseStatus.ok ret
      simp [nbFloodLoop, hi, hEnv, h.1, h.2]

/-- If every port before `j` in the candidate list leaves the status OK but
port `j` leaves it at the non-OK `errSt`, the blocking flood loop visits the
good ports (other than the ingress one) and then `j`, stops there, and ends
with status `errSt`. -/
theorem bFloodLoop_break (bEnv : Nat → TlmResponseStatus → TlmResponseStatus)
    (mon : Bool) (rx j : Nat) (errSt : TlmResponseStatus) (hj : j ≠ rx)
    (hne : errSt ≠ TlmResponseStatus.ok) (hbad : ∀ s, bEnv j s = errSt)
    (hPre : ∀ p, p ≠ j → ∀ s, bEnv p s = TlmResponseStatus.ok) :
    ∀ (l₁ l₂ : List Nat) (st : TlmResponseStatus), (∀ p ∈ l₁, p ≠ j) →
      (bFloodLoop bEnv mon rx (l₁ ++ j :: l₂) st).egressCalls
        = l₁.filter (fun p => decide (p ≠ rx)) ++ [j]
      ∧ (bFloodLoop bEnv mon rx (l₁ ++ j :: l₂) st).respStatus = errSt := by
  intro l₁
  induction l₁ with
  | nil =>
    intro l₂ st _
    simp [bFloodLoop, hj, hbad, hne]
  | cons p rest ih =>
    intro l₂ st hp
    have hpj : p ≠ j := hp p (List.mem_cons_self p rest)
    have hrest : ∀ q ∈ rest, q ≠ j := fun q hq => hp q (List.mem_cons_of_mem p hq)
    by_cases hprx : p = rx
    · subst hprx
      simpa [bFloodLoop] using ih l₂ st hrest
    · have h := ih l₂ TlmResponseStatus.ok hrest
      simp [bFloodLoop, hprx, hPre p hpj, h.1, h.2]

/-- If every port before `j` in the candidate list returns `TLM_COMPLETED`
with status OK, but `j` returns `(rj, sj)` with `rj` non-completed or `sj`
non-OK, the non-blocking flood loop visits the good ports and then `j`,
stops there, ends with status `sj`, and returns `rj` when `rj` is
non-completed, otherwise its accumulated result. -/
theorem nbFloodLoop_break
    (nbEnv : Nat → TlmResponseStatus → TlmSyncEnum × TlmResponseStatus)
    (mon : Bool) (rx j : Nat) (rj : TlmSyncEnum) (sj : TlmResponseStatus)
    (hj : j ≠ rx)
    (hbreak : rj ≠ TlmSyncEnum.completed ∨ sj ≠ TlmResponseStatus.ok)
    (hbad : ∀ s, nbEnv j s = (rj, sj))
    (hPre : ∀ p, p ≠ j → ∀ s, nbEnv p s = (TlmSyncEnum.completed, TlmResponseStatus.ok)) :
    ∀ (l₁ l₂ : List Nat) (st : TlmResponseStatus) (ret : TlmSyncEnum),
      (∀ p ∈ l₁, p ≠ j) →
      (nbFloodLoop nbEnv mon rx (l₁ ++ j :: l₂) st ret).egressCalls
        = (l₁.filter (fun p => decide (p ≠ rx))).map (fun p => (p, TlmPhase.beginReq))
            ++ [(j, TlmPhase.beginReq)]
      ∧ (nbFloodLoop nbEnv mon rx (l₁ ++ j :: l₂) st ret).respStatus = sj
      ∧ (nbFloodLoop nbEnv mon rx (l₁ ++ j :: l₂) st ret).ret
          = (if rj = TlmSyncEnum.completed then ret else rj) := by
  intro l₁
  induction l₁ with
  | nil =>
    intro l₂ st ret _
    by_cases hrj : rj = TlmSyncEnum.completed
    · have hsj : sj ≠ TlmResponseStatus.ok := by
        rcases hbreak with h | h
        · exact absurd hrj h
        · exact h
      simp [nbFloodLoop, hj, hbad, hrj, hsj]
    · simp [nbFloodLoop, hj, hbad, hrj]
  | cons p rest ih =>
    intro l₂ st ret hp
    have hpj : p ≠ j := hp p (List.mem_cons_self p rest)
    have hrest : ∀ q ∈ rest, q ≠ j := fun q hq => hp q (List.mem_cons_of_mem p hq)
    by_cases hprx : p = rx
    · subst hprx
      simpa [nbFloodLoop] using ih l₂ st ret hrest
    · have h := ih l₂ TlmResponseStatus.ok ret hrest
      simp [nbFloodLoop, hprx, hPre p hpj, h.1, h.2.1, h.2.2]

/-- Any port index below the port count splits `List.range` around it. -/
theorem range_split (N j : Nat) (h : j < N) :
    ∃ l₂, List.range N = List.range j ++ j :: l₂ := by
  induction N with
  | zero => exact absurd h (Nat.not_lt_zero j)
  | succ m ih =>
    rcases Nat.lt_succ_iff_lt_or_eq.mp h with h' | h'
    · obtain ⟨l₂, hl⟩ := ih h'
      refine ⟨l₂ ++ [m], ?_⟩
      rw [List.range_succ, hl]
      simp
    · subst h'
      exact ⟨[], by rw [List.range_succ]⟩

/-- Projecting the port out of port-phase pairs recovers the port list. -/
theorem map_fst_pairs (l : List Nat) (ph : TlmPhase) :
    l.map (Prod.fst ∘ fun p => (p, ph)) = l := by
  induction l with
  | nil => rfl
  | cons a t ih => simp [Function.comp, ih]

/-- Neither branch of the blocking routing step modifies the learning
table. -/
theorem bRoute_dMacCache (sw : XlTlmEthSoftSw)
    (bEnv : Nat → TlmResponseStatus → TlmResponseStatus) (rxPortId : Nat)
    (packet : EtherPacket) (inStatus : TlmResponseStatus)
    (rxEvents : List MonitorEvent) (cache : MacCache) :
    (bRoute sw bEnv rxPortId packet inStatus rxEvents cache).dMacCache = cache := by
  cases hm : macFind cache (hashMacAddr packet.destAddr) <;> simp [bRoute, hm]

/-- Neither branch of the blocking routing step reports an error. -/
theorem bRoute_error (sw : XlTlmEthSoftSw)
    (bEnv : Nat → TlmResponseStatus → TlmResponseStatus) (rxPortId : Nat)
    (packet : EtherPacket) (inStatus : TlmResponseStatus)
    (rxEvents : List MonitorEvent) (cache : MacCache) :
    (bRoute sw bEnv rxPortId packet inStatus rxEvents cache).error = none := by
  cases hm : macFind cache (hashMacAddr packet.destAddr) <;> simp [bRoute, hm]

/-- Neither branch of the non-blocking routing step modifies the learning
table. -/
theorem nbRoute_dMacCache (sw : XlTlmEthSoftSw)
    (nbEnv : Nat → TlmResponseStatus → TlmSyncEnum × TlmResponseStatus)
    (rxPortId : Nat) (packet : EtherPacket) (rxEvents : List MonitorEvent)
    (cache : MacCache) :
    (nbRoute sw nbEnv rxPortId packet rxEvents cache).dMacCache = cache := by
  cases hm : macFind cache (hashMacAddr packet.destAddr) <;> simp [nbRoute, hm]

/-- Neither branch of the non-blocking routing step reports an error. -/
theorem nbRoute_error (sw : XlTlmEthSoftSw)
    (nbEnv : Nat → TlmResponseStatus → TlmSyncEnum × TlmResponseStatus)
    (rxPortId : Nat) (packet : EtherPacket) (rxEvents : List MonitorEvent)
    (cache : MacCache) :
    (nbRoute sw nbEnv rxPortId packet rxEvents cache).error = none := by
  cases hm : macFind cache (hashMacAddr packet.destAddr) <;> simp [nbRoute, hm]

/-- C1: for a switch with N ports, a frame whose destination fingerprint has
no binding after source learning, arriving on port `rxPortId` on either
transport path, is forwarded to exactly the ports `{0..N-1} \ {rxPortId}`
in ascending port-index order (each non-blocking call with phase
`BEGIN_REQ`), given that every egress call leaves the response status OK
and (non-blocking) returns `TLM_COMPLETED`. -/
theorem C1_unlearned_dest_floods_all_but_ingress (sw : XlTlmEthSoftSw)
    (bEnv : Nat → TlmResponseStatus → TlmResponseStatus)
    (nbEnv : Nat → TlmResponseStatus → TlmSyncEnum × TlmResponseStatus)
    (rxPortId : Nat) (packet : EtherPacket) (inStatus : TlmResponseStatus)
    (hSrc : macFind sw.dMacCache (hashMacAddr packet.srcAddr) = none ∨
      macFind sw.dMacCache (hashMacAddr packet.srcAddr) = some rxPortId)
    (hDst : macFind sw.dMacCache (hashMacAddr packet.destAddr) = none)
    (hNe : hashMacAddr packet.destAddr ≠ hashMacAddr packet.srcAddr)
    (hB : ∀ p s, bEnv p s = TlmResponseStatus.ok)
    (hNb : ∀ p s, nbEnv p s = (TlmSyncEnum.completed, TlmResponseStatus.ok)) :
    (b_transport sw bEnv rxPortId packet inStatus).egressCalls
      = (List.range sw.dNumPorts).filter (fun p => decide (p ≠ rxPortId))
    ∧ (nb_transport_fw sw nbEnv rxPortId packet false).egressCalls
      = ((List.range sw.dNumPorts).filter (fun p => decide (p ≠ rxPortId))).map
          (fun p => (p, TlmPhase.beginReq))
    ∧ (b_transport sw bEnv rxPortId packet inStatus).error = none
    ∧ (nb_transport_fw sw nbEnv rxPortId packet false).error = none
    ∧ (nb_transport_fw sw nbEnv rxPortId packet false).ret = TlmSyncEnum.completed
    ∧ (∀ p, p ∈ (b_transport sw bEnv rxPortId packet inStatus).egressCalls
        ↔ p < sw.dNumPorts ∧ p ≠ rxPortId)
    ∧ (b_transport sw bEnv rxPortId packet inStatus).egressCalls.Pairwise (· < ·) := by
  have hsd : hashMacAddr packet.srcAddr ≠ hashMacAddr packet.destAddr :=
    fun e => hNe e.symm
  have hDst2 : macFind ((hashMacAddr packet.srcAddr, rxPortId) :: sw.dMacCache)
      (hashMacAddr packet.destAddr) = none := by
    simp [macFind, hsd, hDst]
  have hBfl := bFloodLoop_allOk bEnv sw.isMonitoringEnabled rxPortId hB
    (List.range sw.dNumPorts) inStatus
  have hNbfl := nbFloodLoop_allOk nbEnv sw.isMonitoringEnabled rxPortId hNb
    (List.range sw.dNumPorts) TlmResponseStatus.ok TlmSyncEnum.completed
  have hmain :
      (b_transport sw bEnv rxPortId packet inStatus).egressCalls
        = (List.range sw.dNumPorts).filter (fun p => decide (p ≠ rxPortId))
      ∧ (nb_transport_fw sw nbEnv rxPortId packet false).egressCalls
        = ((List.range sw.dNumPorts).filter (fun p => decide (p ≠ rxPortId))).map
            (fun p => (p, TlmPhase.beginReq))
      ∧ (b_transport sw bEnv rxPortId packet inStatus).error = none
      ∧ (nb_transport_fw sw nbEnv rxPortId packet false).error = none
      ∧ (nb_transport_fw sw nbEnv rxPortId packet false).ret = TlmSyncEnum.completed := by
    rcases hSrc with h | h
    · refine ⟨?_, ?_, ?_, ?_, ?_⟩ <;>
        simp [b_transport, nb_transport_fw, bRoute, nbRoute, h, hDst2, hBfl,
          hNbfl.1, hNbfl.2]
    · refine ⟨?_, ?_, ?_, ?_, ?_⟩ <;>
        simp [b_transport, nb_transport_fw, bRoute, nbRoute, h, hDst, hBfl,
          hNbfl.1, hNbfl.2]
  refine ⟨hmain.1, hmain.2.1, hmain.2.2.1, hmain.2.2.2.1, hmain.2.2.2.2, ?_, ?_⟩
  · intro p
    rw [hmain.1]
    simp [List.mem_filter, List.mem_range]
  · rw [hmain.1]
    exact List.Pairwise.sublist (List.filter_sublist _) (List.pairwise_lt_range _)

/-- C2: once the destination fingerprint is bound to port `j`, a frame
arriving on a different port `rxPortId` is forwarded only to port `j` on
both transport paths: exactly one egress call, to `j`, and no flood. -/
theorem C2_learned_dest_unicasts_to_bound_port (sw : XlTlmEthSoftSw)
    (bEnv : Nat → TlmResponseStatus → TlmResponseStatus)
    (nbEnv : Nat → TlmResponseStatus → TlmSyncEnum × TlmResponseStatus)
    (rxPortId j : Nat) (packet : EtherPacket) (inStatus : TlmResponseStatus)
    (hSrc : macFind sw.dMacCache (hashMacAddr packet.srcAddr) = none ∨
      macFind sw.dMacCache (hashMacAddr packet.srcAddr) = some rxPortId)
    (hDst : macFind sw.dMacCache (hashMacAddr packet.destAddr) = some j)
    (hij : rxPortId ≠ j) :
    (b_transport sw bEnv rxPortId packet inStatus).egressCalls = [j]
    ∧ (nb_transport_fw sw nbEnv rxPortId packet false).egressCalls
        = [(j, TlmPhase.beginReq)]
    ∧ (b_transport sw bEnv rxPortId packet inStatus).error = none
    ∧ (nb_transport_fw sw nbEnv rxPortId packet false).error = none := by
  rcases hSrc with h | h
  · have hsd : hashMacAddr packet.srcAddr ≠ hashMacAddr packet.destAddr := by
      intro e
      rw [e, hDst] at h
      exact Option.noConfusion h
    have hDst2 : macFind ((hashMacAddr packet.srcAddr, rxPortId) :: sw.dMacCache)
        (hashMacAddr packet.destAddr) = some j := by
      simp [macFind, hsd, hDst]
    refine ⟨?_, ?_, ?_, ?_⟩ <;>
      simp [b_transport, nb_transport_fw, bRoute, nbRoute, h, hDst2]
  · refine ⟨?_, ?_, ?_, ?_⟩ <;>
      simp [b_transport, nb_transport_fw, bRoute, nbRoute, h, hDst]

/-- C4: learning the source fingerprint precedes the destination lookup, so
a frame whose destination fingerprint equals its (previously unlearned)
source fingerprint is unicast back to its own ingress port within the same
call, on both transport paths, rather than flooded. -/
theorem C4_learn_precedes_route_self_unicast (sw : XlTlmEthSoftSw)
    (bEnv : Nat → TlmResponseStatus → TlmResponseStatus)
    (nbEnv : Nat → TlmResponseStatus → TlmSyncEnum × TlmResponseStatus)
    (rxPortId : Nat) (packet : EtherPacket) (inStatus : TlmResponseStatus)
    (hSrc : macFind sw.dMacCache (hashMacAddr packet.srcAddr) = none)
    (hEq : hashMacAddr packet.destAddr = hashMacAddr packet.srcAddr) :
    (b_transport sw bEnv rxPortId packet inStatus).egressCalls = [rxPortId]
    ∧ (nb_transport_fw sw nbEnv rxPortId packet false).egressCalls
        = [(rxPortId, TlmPhase.beginReq)]
    ∧ (b_transport sw bEnv rxPortId packet inStatus).error = none
    ∧ (nb_transport_fw sw nbEnv rxPortId packet false).error = none := by
  have hDst2 : macFind ((hashMacAddr packet.srcAddr, rxPortId) :: sw.dMacCache)
      (hashMacAddr packet.destAddr) = some rxPortId := by
    simp [macFind, hEq]
  refine ⟨?_, ?_, ?_, ?_⟩ <;>
    simp [b_transport, nb_transport_fw, bRoute, nbRoute, hSrc, hDst2]

/-- C10: when the destination fingerprint is bound to the ingress port
itself, both paths unicast the frame back out the ingress port: the unicast
branch never excludes the ingress port. -/
theorem C10_dest_bound_to_ingress_reflects (sw : XlTlmEthSoftSw)
    (bEnv : Nat → TlmResponseStatus → TlmResponseStatus)
    (nbEnv : Nat → TlmResponseStatus → TlmSyncEnum × TlmResponseStatus)
    (rxPortId : Nat) (packet : EtherPacket) (inStatus : TlmResponseStatus)
    (hSrc : macFind sw.dMacCache (hashMacAddr packet.srcAddr) = none ∨
      macFind sw.dMacCache (hashMacAddr packet.srcAddr) = some rxPortId)
    (hDst : macFind sw.dMacCache (hashMacAddr packet.destAddr) = some rxPortId) :
    (b_transport sw bEnv rxPortId packet inStatus).egressCalls = [rxPortId]
    ∧ (nb_transport_fw sw nbEnv rxPortId packet false).egressCalls
        = [(rxPortId, TlmPhase.beginReq)]
    ∧ (b_transport sw bEnv rxPortId packet inStatus).error = none
    ∧ (nb_transport_fw sw nbEnv rxPortId packet false).error = none := by
  rcases hSrc with h | h
  · have hDst2 : macFind ((hashMacAddr packet.srcAddr, rxPortId) :: sw.dMacCache)
        (hashMacAddr packet.destAddr) = some rxPortId := by
      by_cases hsd : hashMacAddr packet.srcAddr = hashMacAddr packet.destAddr
      · simp [macFind, hsd]
      · simp [macFind, hsd, hDst]
    refine ⟨?_, ?_, ?_, ?_⟩ <;>
      simp [b_transport, nb_transport_fw, bRoute, nbRoute, h, hDst2]
  · refine ⟨?_, ?_, ?_, ?_⟩ <;>
      simp [b_transport, nb_transport_fw, bRoute, nbRoute, h, hDst]

example :
    (b_transport ⟨3, [], false⟩ (fun _ _ => TlmResponseStatus.ok) 0
      ⟨⟨0xAA, 0xBB, 0xCC, 0, 0, 2⟩, ⟨0xAA, 0xBB, 0xCC, 0, 0, 1⟩⟩
      TlmResponseStatus.ok).egressCalls = [1, 2] := by decide

example :
    (nb_transport_fw ⟨3, [(hashMacAddr ⟨0xAA, 0xBB, 0xCC, 0, 0, 1⟩, 0)], false⟩
      (fun _ _ => (TlmSyncEnum.completed, TlmResponseStatus.ok)) 1
      ⟨⟨0xAA, 0xBB, 0xCC, 0, 0, 1⟩, ⟨0xAA, 0xBB, 0xCC, 0, 0, 2⟩⟩
      false).egressCalls = [(0, TlmPhase.beginReq)] := by decide

/-- C3 counterexample: a non-blocking transport call that carries the
configuration extension, arriving on port 2 with a source address whose
fingerprint (1) is already bound to port 0, does not fail: it returns
`TLM_COMPLETED` with no `InconsistentBinding` error, refuting the claim
that every transport call with an inconsistently bound source fails. -/
theorem C3_counterexample_config_call_does_not_fail :
    macFind [(1, 0)] (hashMacAddr ⟨1, 0, 0, 0, 0, 0⟩) = some 0
    ∧ (0 : Nat) ≠ 2
    ∧ (nb_transport_fw ⟨3, [(1, 0)], false⟩
        (fun _ _ => (TlmSyncEnum.completed, TlmResponseStatus.ok)) 2
        ⟨⟨2, 0, 0, 0, 0, 0⟩, ⟨1, 0, 0, 0, 0, 0⟩⟩ true).error = none
    ∧ (nb_transport_fw ⟨3, [(1, 0)], false⟩
        (fun _ _ => (TlmSyncEnum.completed, TlmResponseStatus.ok)) 2
        ⟨⟨2, 0, 0, 0, 0, 0⟩, ⟨1, 0, 0, 0, 0, 0⟩⟩ true).ret
        = TlmSyncEnum.completed := by
  decide

/-- C3 (amended): every blocking transport call, and every non-blocking
transport call that does not carry the configuration extension, whose
source fingerprint is already bound to a port different from the ingress
port fails with the distinguishable `InconsistentBinding` error; no egress
port is invoked and the learning table is unchanged. -/
theorem C3_inconsistent_binding_fails_without_forwarding (sw : XlTlmEthSoftSw)
    (bEnv : Nat → TlmResponseStatus → TlmResponseStatus)
    (nbEnv : Nat → TlmResponseStatus → TlmSyncEnum × TlmResponseStatus)
    (rxPortId boundPort : Nat) (packet : EtherPacket)
    (inStatus : TlmResponseStatus)
    (hSrc : macFind sw.dMacCache (hashMacAddr packet.srcAddr) = some boundPort)
    (hne : rxPortId ≠ boundPort) :
    (b_transport sw bEnv rxPortId packet inStatus).error
      = some (SwError.inconsistentBinding (hashMacAddr packet.srcAddr)
          boundPort rxPortId)
    ∧ (b_transport sw bEnv rxPortId packet inStatus).egressCalls = []
    ∧ (b_transport sw bEnv rxPortId packet inStatus).dMacCache = sw.dMacCache
    ∧ (nb_transport_fw sw nbEnv rxPortId packet false).error
      = some (SwError.inconsistentBinding (hashMacAddr packet.srcAddr)
          boundPort rxPortId)
    ∧ (nb_transport_fw sw nbEnv rxPortId packet false).egressCalls = []
    ∧ (nb_transport_fw sw nbEnv rxPortId packet false).dMacCache
      = sw.dMacCache := by
  refine ⟨?_, ?_, ?_, ?_, ?_, ?_⟩ <;>
    simp [b_transport, nb_transport_fw, hSrc, hne]

/-- C5: given the same learning-table state and the same frame addresses,
the blocking and the non-blocking path compute identical routing decisions:
the same error, the same resulting table, and the same egress-port
sequence (unicast target or ascending flood set). -/
theorem C5_paths_compute_identical_routing (sw : XlTlmEthSoftSw)
    (rxPortId : Nat) (packet : EtherPacket) (inStatus : TlmResponseStatus) :
    (b_transport sw (fun _ _ => TlmResponseStatus.ok) rxPortId packet inStatus).error
      = (nb_transport_fw sw
          (fun _ _ => (TlmSyncEnum.completed, TlmResponseStatus.ok))
          rxPortId packet false).error
    ∧ (b_transport sw (fun _ _ => TlmResponseStatus.ok) rxPortId packet
        inStatus).dMacCache
      = (nb_transport_fw sw
          (fun _ _ => (TlmSyncEnum.completed, TlmResponseStatus.ok))
          rxPortId packet false).dMacCache
    ∧ (b_transport sw (fun _ _ => TlmResponseStatus.ok) rxPortId packet
        inStatus).egressCalls
      = ((nb_transport_fw sw
          (fun _ _ => (TlmSyncEnum.completed, TlmResponseStatus.ok))
          rxPortId packet false).egressCalls).map Prod.fst := by
  have hBfl := bFloodLoop_allOk (fun _ _ => TlmResponseStatus.ok)
    sw.isMonitoringEnabled rxPortId (fun _ _ => rfl)
    (List.range sw.dNumPorts) inStatus
  have hNbfl := (nbFloodLoop_allOk
    (fun _ _ => (TlmSyncEnum.completed, TlmResponseStatus.ok))
    sw.isMonitoringEnabled rxPortId (fun _ _ => rfl)
    (List.range sw.dNumPorts) TlmResponseStatus.ok TlmSyncEnum.completed).1
  cases hsc : macFind sw.dMacCache (hashMacAddr packet.srcAddr) with
  | none =>
    cases hd : macFind ((hashMacAddr packet.srcAddr, rxPortId) :: sw.dMacCache)
        (hashMacAddr packet.destAddr) with
    | none =>
      refine ⟨?_, ?_, ?_⟩ <;>
        simp [b_transport, nb_transport_fw, bRoute, nbRoute, hsc, hd, hBfl,
          hNbfl, map_fst_pairs]
    | some portId =>
      refine ⟨?_, ?_, ?_⟩ <;>
        simp [b_transport, nb_transport_fw, bRoute, nbRoute, hsc, hd]
  | some boundPort =>
    by_cases hrb : rxPortId = boundPort
    · subst hrb
      cases hd : macFind sw.dMacCache (hashMacAddr packet.destAddr) with
      | none =>
        refine ⟨?_, ?_, ?_⟩ <;>
          simp [b_transport, nb_transport_fw, bRoute, nbRoute, hsc, hd,
            hBfl, hNbfl, map_fst_pairs]
      | some portId =>
        refine ⟨?_, ?_, ?_⟩ <;>
          simp [b_transport, nb_transport_fw, bRoute, nbRoute, hsc, hd]
    · refine ⟨?_, ?_, ?_⟩ <;>
        simp [b_transport, nb_transport_fw, hsc, hrb]

/-- C8: a non-blocking call carrying the configuration extension sets the
frame's response status to OK and returns `TLM_COMPLETED` immediately: no
monitor event is published, the learning table is untouched, and no egress
port is invoked. -/
theorem C8_config_extension_short_circuits (sw : XlTlmEthSoftSw)
    (nbEnv : Nat → TlmResponseStatus → TlmSyncEnum × TlmResponseStatus)
    (rxPortId : Nat) (packet : EtherPacket) :
    nb_transport_fw sw nbEnv rxPortId packet true
      = { ret := TlmSyncEnum.completed, error := none,
          dMacCache := sw.dMacCache, egressCalls := [],
          respStatus := TlmResponseStatus.ok, monitorEvents := [] } := rfl

/-- C6: when during a blocking flood the egress call to target port `j`
leaves the frame's response status at the non-OK value `errSt` while every
other port would leave it OK, the blocking path invokes exactly the
non-ingress ports up to and including `j` (never any higher-indexed port),
leaves `errSt` in the frame, reports no error, and still releases the
exclusive-access lock. -/
theorem C6_blocking_flood_early_stop_releases_lock (sw : XlTlmEthSoftSw)
    (bEnv : Nat → TlmResponseStatus → TlmResponseStatus)
    (rxPortId j : Nat) (packet : EtherPacket) (inStatus : TlmResponseStatus)
    (errSt : TlmResponseStatus)
    (hSrc : macFind sw.dMacCache (hashMacAddr packet.srcAddr) = none ∨
      macFind sw.dMacCache (hashMacAddr packet.srcAddr) = some rxPortId)
    (hDst : macFind sw.dMacCache (hashMacAddr packet.destAddr) = none)
    (hNe : hashMacAddr packet.destAddr ≠ hashMacAddr packet.srcAddr)
    (hjN : j < sw.dNumPorts) (hjrx : j ≠ rxPortId)
    (hErr : errSt ≠ TlmResponseStatus.ok)
    (hbad : ∀ s, bEnv j s = errSt)
    (hgood : ∀ p, p ≠ j → ∀ s, bEnv p s = TlmResponseStatus.ok) :
    (b_transport sw bEnv rxPortId packet inStatus).egressCalls
      = (List.range (j + 1)).filter (fun p => decide (p ≠ rxPortId))
    ∧ (∀ p ∈ (b_transport sw bEnv rxPortId packet inStatus).egressCalls, p ≤ j)
    ∧ (b_transport sw bEnv rxPortId packet inStatus).respStatus = errSt
    ∧ (b_transport sw bEnv rxPortId packet inStatus).lockReleased = true
    ∧ (b_transport sw bEnv rxPortId packet inStatus).error = none := by
  obtain ⟨l₂, hsplit⟩ := range_split sw.dNumPorts j hjN
  have hl₁ : ∀ p ∈ List.range j, p ≠ j :=
    fun p hp => Nat.ne_of_lt (List.mem_range.mp hp)
  have hbr := bFloodLoop_break bEnv sw.isMonitoringEnabled rxPortId j errSt
    hjrx hErr hbad hgood (List.range j) l₂ inStatus hl₁
  have hfe : (List.range (j + 1)).filter (fun p => decide (p ≠ rxPortId))
      = (List.range j).filter (fun p => decide (p ≠ rxPortId)) ++ [j] := by
    rw [List.range_succ, List.filter_append]
    simp [hjrx]
  have hsd : hashMacAddr packet.srcAddr ≠ hashMacAddr packet.destAddr :=
    fun e => hNe e.symm
  have hmain :
      (b_transport sw bEnv rxPortId packet inStatus).egressCalls
        = (List.range j).filter (fun p => decide (p ≠ rxPortId)) ++ [j]
      ∧ (b_transport sw bEnv rxPortId packet inStatus).respStatus = errSt
      ∧ (b_transport sw bEnv rxPortId packet inStatus).lockReleased = true
      ∧ (b_transport sw bEnv rxPortId packet inStatus).error = none := by
    rcases hSrc with h | h
    · have hDst2 : macFind ((hashMacAddr packet.srcAddr, rxPortId) :: sw.dMacCache)
          (hashMacAddr packet.destAddr) = none := by
        simp [macFind, hsd, hDst]
      refine ⟨?_, ?_, ?_, ?_⟩ <;>
        simp [b_transport, bRoute, h, hDst2, hsplit, hbr.1, hbr.2]
    · refine ⟨?_, ?_, ?_, ?_⟩ <;>
        simp [b_transport, bRoute, h, hDst, hsplit, hbr.1, hbr.2]
  refine ⟨by rw [hmain.1, hfe], ?_, hmain.2.1, hmain.2.2.1, hmain.2.2.2⟩
  intro p hp
  rw [hmain.1] at hp
  rcases List.mem_append.mp hp with h | h
  · exact Nat.le_of_lt (List.mem_range.mp (List.mem_of_mem_filter h))
  · rw [List.mem_singleton] at h
    exact Nat.le_of_eq h

/-- C7: when during a non-blocking flood the egress call to target port `j`
returns `(rj, sj)` with `rj` non-completed or `sj` non-OK while every other
port would return `TLM_COMPLETED` leaving status OK, the non-blocking path
invokes exactly the non-ingress ports up to and including `j`, each with
phase `BEGIN_REQ`, ends with status `sj`, and returns `rj` when it is a
non-completed result, otherwise `TLM_COMPLETED`. -/
theorem C7_nb_flood_early_stop_propagates (sw : XlTlmEthSoftSw)
    (nbEnv : Nat → TlmResponseStatus → TlmSyncEnum × TlmResponseStatus)
    (rxPortId j : Nat) (packet : EtherPacket)
    (rj : TlmSyncEnum) (sj : TlmResponseStatus)
    (hSrc : macFind sw.dMacCache (hashMacAddr packet.srcAddr) = none ∨
      macFind sw.dMacCache (hashMacAddr packet.srcAddr) = some rxPortId)
    (hDst : macFind sw.dMacCache (hashMacAddr packet.destAddr) = none)
    (hNe : hashMacAddr packet.destAddr ≠ hashMacAddr packet.srcAddr)
    (hjN : j < sw.dNumPorts) (hjrx : j ≠ rxPortId)
    (hbreak : rj ≠ TlmSyncEnum.completed ∨ sj ≠ TlmResponseStatus.ok)
    (hbad : ∀ s, nbEnv j s = (rj, sj))
    (hgood : ∀ p, p ≠ j → ∀ s,
      nbEnv p s = (TlmSyncEnum.completed, TlmResponseStatus.ok)) :
    (nb_transport_fw sw nbEnv rxPortId packet false).egressCalls
      = ((List.range (j + 1)).filter (fun p => decide (p ≠ rxPortId))).map
          (fun p => (p, TlmPhase.beginReq))
    ∧ (∀ pc ∈ (nb_transport_fw sw nbEnv rxPortId packet false).egressCalls,
        pc.2 = TlmPhase.beginReq)
    ∧ (nb_transport_fw sw nbEnv rxPortId packet false).respStatus = sj
    ∧ (nb_transport_fw sw nbEnv rxPortId packet false).ret
      = (if rj = TlmSyncEnum.completed then TlmSyncEnum.completed else rj)
    ∧ (nb_transport_fw sw nbEnv rxPortId packet false).error = none := by
  obtain ⟨l₂, hsplit⟩ := range_split sw.dNumPorts j hjN
  have hl₁ : ∀ p ∈ List.range j, p ≠ j :=
    fun p hp => Nat.ne_of_lt (List.mem_range.mp hp)
  have hbr := nbFloodLoop_break nbEnv sw.isMonitoringEnabled rxPortId j rj sj
    hjrx hbreak hbad hgood (List.range j) l₂ TlmResponseStatus.ok
    TlmSyncEnum.completed hl₁
  have hfe : (List.range (j + 1)).filter (fun p => decide (p ≠ rxPortId))
      = (List.range j).filter (fun p => decide (p ≠ rxPortId)) ++ [j] := by
    rw [List.range_succ, List.filter_append]
    simp [hjrx]
  have hsd : hashMacAddr packet.srcAddr ≠ hashMacAddr packet.destAddr :=
    fun e => hNe e.symm
  have hmain :
      (nb_transport_fw sw nbEnv rxPortId packet false).egressCalls
        = ((List.range j).filter (fun p => decide (p ≠ rxPortId))).map
            (fun p => (p, TlmPhase.beginReq)) ++ [(j, TlmPhase.beginReq)]
      ∧ (nb_transport_fw sw nbEnv rxPortId packet false).respStatus = sj
      ∧ (nb_transport_fw sw nbEnv rxPortId packet false).ret
        = (if rj = TlmSyncEnum.completed then TlmSyncEnum.completed else rj)
      ∧ (nb_transport_fw sw nbEnv rxPortId packet false).error = none := by
    rcases hSrc with h | h
    · have hDst2 : macFind ((hashMacAddr packet.srcAddr, rxPortId) :: sw.dMacCache)
          (hashMacAddr packet.destAddr) = none := by
        simp [macFind, hsd, hDst]
      refine ⟨?_, ?_, ?_, ?_⟩ <;>
        simp [nb_transport_fw, nbRoute, h, hDst2, hsplit, hbr.1, hbr.2.1, hbr.2.2]
    · refine ⟨?_, ?_, ?_, ?_⟩ <;>
        simp [nb_transport_fw, nbRoute, h, hDst, hsplit, hbr.1, hbr.2.1, hbr.2.2]
  refine ⟨?_, ?_, hmain.2.1, hmain.2.2.1, hmain.2.2.2⟩
  · rw [hmain.1, hfe, List.map_append]
    simp
  · intro pc hpc
    rw [hmain.1] at hpc
    rcases List.mem_append.mp hpc with h | h
    · rcases List.mem_map.mp h with ⟨p, -, rfl⟩
      rfl
    · rw [List.mem_singleton] at h
      subst h
      rfl

/-- C9: on every transport call of either path, every binding present in
the learning table beforehand is still present with the same port
afterwards (the table only grows), and re-observing a source fingerprint on
the very port it is bound to changes nothing and raises no error. -/
theorem C9_table_grows_and_relearn_idempotent (sw : XlTlmEthSoftSw)
    (bEnv : Nat → TlmResponseStatus → TlmResponseStatus)
    (nbEnv : Nat → TlmResponseStatus → TlmSyncEnum × TlmResponseStatus)
    (rxPortId : Nat) (packet : EtherPacket) (inStatus : TlmResponseStatus)
    (hasConfigExtension : Bool) (k v : Nat)
    (hk : macFind sw.dMacCache k = some v) :
    macFind (b_transport sw bEnv rxPortId packet inStatus).dMacCache k = some v
    ∧ macFind (nb_transport_fw sw nbEnv rxPortId packet
        hasConfigExtension).dMacCache k = some v
    ∧ (k = hashMacAddr packet.srcAddr → v = rxPortId →
        (b_transport sw bEnv rxPortId packet inStatus).dMacCache = sw.dMacCache
        ∧ (b_transport sw bEnv rxPortId packet inStatus).error = none
        ∧ (nb_transport_fw sw nbEnv rxPortId packet
            hasConfigExtension).dMacCache = sw.dMacCache
        ∧ (nb_transport_fw sw nbEnv rxPortId packet
            hasConfigExtension).error = none) := by
  cases hsc : macFind sw.dMacCache (hashMacAddr packet.srcAddr) with
  | none =>
    have hkne : hashMacAddr packet.srcAddr ≠ k := by
      intro e
      rw [e, hk] at hsc
      exact Option.noConfusion hsc
    have hbC : (b_transport sw bEnv rxPortId packet inStatus).dMacCache
        = (hashMacAddr packet.srcAddr, rxPortId) :: sw.dMacCache := by
      simp [b_transport, hsc, bRoute_dMacCache]
    have hnbC : (nb_transport_fw sw nbEnv rxPortId packet
        hasConfigExtension).dMacCache
        = if hasConfigExtension then sw.dMacCache
          else (hashMacAddr packet.srcAddr, rxPortId) :: sw.dMacCache := by
      cases hasConfigExtension <;>
        simp [nb_transport_fw, hsc, nbRoute_dMacCache]
    refine ⟨?_, ?_, ?_⟩
    · rw [hbC]
      simp [macFind, hkne, hk]
    · rw [hnbC]
      cases hasConfigExtension
      · simp [macFind, hkne, hk]
      · simpa using hk
    · intro hke _
      rw [← hke, hk] at hsc
      exact Option.noConfusion hsc
  | some boundPort =>
    by_cases hrb : rxPortId = boundPort
    · subst hrb
      have hbC : (b_transport sw bEnv rxPortId packet inStatus).dMacCache
          = sw.dMacCache := by
        simp [b_transport, hsc, bRoute_dMacCache]
      have hbE : (b_transport sw bEnv rxPortId packet inStatus).error = none := by
        simp [b_transport, hsc, bRoute_error]
      have hnbC : (nb_transport_fw sw nbEnv rxPortId packet
          hasConfigExtension).dMacCache = sw.dMacCache := by
        cases hasConfigExtension <;>
          simp [nb_transport_fw, hsc, nbRoute_dMacCache]
      have hnbE : (nb_transport_fw sw nbEnv rxPortId packet
          hasConfigExtension).error = none := by
        cases hasConfigExtension <;>
          simp [nb_transport_fw, hsc, nbRoute_error]
      exact ⟨by rw [hbC]; exact hk, by rw [hnbC]; exact hk,
        fun _ _ => ⟨hbC, hbE, hnbC, hnbE⟩⟩
    · have hbC : (b_transport sw bEnv rxPortId packet inStatus).dMacCache
          = sw.dMacCache := by
        simp [b_transport, hsc, hrb]
      have hnbC : (nb_transport_fw sw nbEnv rxPortId packet
          hasConfigExtension).dMacCache = sw.dMacCache := by
        cases hasConfigExtension <;> simp [nb_transport_fw, hsc, hrb]
      refine ⟨by rw [hbC]; exact hk, by rw [hnbC]; exact hk, ?_⟩
      intro hke hve
      rw [hke, hsc] at hk
      exact absurd ((Option.some.inj hk).trans hve).symm hrb

/-- Witness for C1: a 3-port switch with an empty table floods a frame
arriving on port 0 to ports 1 and 2, on both paths. -/
theorem C1_witness :
    (b_transport ⟨3, [], false⟩ (fun _ _ => TlmResponseStatus.ok) 0
      ⟨⟨0xAA, 0xBB, 0xCC, 0, 0, 2⟩, ⟨0xAA, 0xBB, 0xCC, 0, 0, 1⟩⟩
      TlmResponseStatus.ok).egressCalls
      = (List.range 3).filter (fun p => decide (p ≠ 0))
    ∧ (nb_transport_fw ⟨3, [], false⟩
        (fun _ _ => (TlmSyncEnum.completed, TlmResponseStatus.ok)) 0
        ⟨⟨0xAA, 0xBB, 0xCC, 0, 0, 2⟩, ⟨0xAA, 0xBB, 0xCC, 0, 0, 1⟩⟩
        false).egressCalls
      = ((List.range 3).filter (fun p => decide (p ≠ 0))).map
          (fun p => (p, TlmPhase.beginReq)) := by
  have h := C1_unlearned_dest_floods_all_but_ingress ⟨3, [], false⟩
    (fun _ _ => TlmResponseStatus.ok)
    (fun _ _ => (TlmSyncEnum.completed, TlmResponseStatus.ok)) 0
    ⟨⟨0xAA, 0xBB, 0xCC, 0, 0, 2⟩, ⟨0xAA, 0xBB, 0xCC, 0, 0, 1⟩⟩
    TlmResponseStatus.ok (Or.inl rfl) rfl (by decide)
    (fun _ _ => rfl) (fun _ _ => rfl)
  exact ⟨h.1, h.2.1⟩

/-- Witness for C2: after fingerprint(AA:BB:CC:00:00:01) was learned on
port 0, a frame for that destination arriving on port 1 is unicast to port
0 on both paths. -/
theorem C2_witness :
    (b_transport ⟨3, [(hashMacAddr ⟨0xAA, 0xBB, 0xCC, 0, 0, 1⟩, 0)], false⟩
      (fun _ _ => TlmResponseStatus.ok) 1
      ⟨⟨0xAA, 0xBB, 0xCC, 0, 0, 1⟩, ⟨0xAA, 0xBB, 0xCC, 0, 0, 2⟩⟩
      TlmResponseStatus.ok).egressCalls = [0]
    ∧ (nb_transport_fw ⟨3, [(hashMacAddr ⟨0xAA, 0xBB, 0xCC, 0, 0, 1⟩, 0)], false⟩
        (fun _ _ => (TlmSyncEnum.completed, TlmResponseStatus.ok)) 1
        ⟨⟨0xAA, 0xBB, 0xCC, 0, 0, 1⟩, ⟨0xAA, 0xBB, 0xCC, 0, 0, 2⟩⟩
        false).egressCalls = [(0, TlmPhase.beginReq)] := by
  have h := C2_learned_dest_unicasts_to_bound_port
    ⟨3, [(hashMacAddr ⟨0xAA, 0xBB, 0xCC, 0, 0, 1⟩, 0)], false⟩
    (fun _ _ => TlmResponseStatus.ok)
    (fun _ _ => (TlmSyncEnum.completed, TlmResponseStatus.ok)) 1 0
    ⟨⟨0xAA, 0xBB, 0xCC, 0, 0, 1⟩, ⟨0xAA, 0xBB, 0xCC, 0, 0, 2⟩⟩
    TlmResponseStatus.ok (Or.inl (by decide)) (by decide) (by decide)
  exact ⟨h.1, h.2.1⟩

/-- Witness for C3 (amended): a frame claiming source AA:BB:CC:00:00:01,
bound to port 0, arriving on port 2, fails with `InconsistentBinding` on
both paths (the non-blocking call without the configuration extension). -/
theorem C3_witness :
    (b_transport ⟨3, [(hashMacAddr ⟨0xAA, 0xBB, 0xCC, 0, 0, 1⟩, 0)], false⟩
      (fun _ _ => TlmResponseStatus.ok) 2
      ⟨⟨0xAA, 0xBB, 0xCC, 0, 0, 2⟩, ⟨0xAA, 0xBB, 0xCC, 0, 0, 1⟩⟩
      TlmResponseStatus.ok).error
      = some (SwError.inconsistentBinding
          (hashMacAddr ⟨0xAA, 0xBB, 0xCC, 0, 0, 1⟩) 0 2)
    ∧ (nb_transport_fw ⟨3, [(hashMacAddr ⟨0xAA, 0xBB, 0xCC, 0, 0, 1⟩, 0)], false⟩
        (fun _ _ => (TlmSyncEnum.completed, TlmResponseStatus.ok)) 2
        ⟨⟨0xAA, 0xBB, 0xCC, 0, 0, 2⟩, ⟨0xAA, 0xBB, 0xCC, 0, 0, 1⟩⟩
        false).error
      = some (SwError.inconsistentBinding
          (hashMacAddr ⟨0xAA, 0xBB, 0xCC, 0, 0, 1⟩) 0 2) := by
  have h := C3_inconsistent_binding_fails_without_forwarding
    ⟨3, [(hashMacAddr ⟨0xAA, 0xBB, 0xCC, 0, 0, 1⟩, 0)], false⟩
    (fun _ _ => TlmResponseStatus.ok)
    (fun _ _ => (TlmSyncEnum.completed, TlmResponseStatus.ok)) 2 0
    ⟨⟨0xAA, 0xBB, 0xCC, 0, 0, 2⟩, ⟨0xAA, 0xBB, 0xCC, 0, 0, 1⟩⟩
    TlmResponseStatus.ok (by decide) (by decide)
  exact ⟨h.1, h.2.2.2.1⟩

/-- Witness for C4: a frame whose destination equals its unlearned source
address, arriving on port 0, is unicast back to port 0 on both paths. -/
theorem C4_witness :
    (b_transport ⟨3, [], false⟩ (fun _ _ => TlmResponseStatus.ok) 0
      ⟨⟨0xAA, 0xBB, 0xCC, 0, 0, 1⟩, ⟨0xAA, 0xBB, 0xCC, 0, 0, 1⟩⟩
      TlmResponseStatus.ok).egressCalls = [0]
    ∧ (nb_transport_fw ⟨3, [], false⟩
        (fun _ _ => (TlmSyncEnum.completed, TlmResponseStatus.ok)) 0
        ⟨⟨0xAA, 0xBB, 0xCC, 0, 0, 1⟩, ⟨0xAA, 0xBB, 0xCC, 0, 0, 1⟩⟩
        false).egressCalls = [(0, TlmPhase.beginReq)] := by
  have h := C4_learn_precedes_route_self_unicast ⟨3, [], false⟩
    (fun _ _ => TlmResponseStatus.ok)
    (fun _ _ => (TlmSyncEnum.completed, TlmResponseStatus.ok)) 0
    ⟨⟨0xAA, 0xBB, 0xCC, 0, 0, 1⟩, ⟨0xAA, 0xBB, 0xCC, 0, 0, 1⟩⟩
    TlmResponseStatus.ok rfl rfl
  exact ⟨h.1, h.2.1⟩

/-- Witness for C6: on a 3-port switch flooding from port 0, an error from
egress port 1 stops the flood before port 2, leaves the error status in the
frame and still releases the lock. -/
theorem C6_witness :
    (b_transport ⟨3, [], false⟩
      (fun p _ => if p = 1 then TlmResponseStatus.genericError
        else TlmResponseStatus.ok) 0
      ⟨⟨0xAA, 0xBB, 0xCC, 0, 0, 2⟩, ⟨0xAA, 0xBB, 0xCC, 0, 0, 1⟩⟩
      TlmResponseStatus.ok).egressCalls
      = (List.range (1 + 1)).filter (fun p => decide (p ≠ 0))
    ∧ (b_transport ⟨3, [], false⟩
        (fun p _ => if p = 1 then TlmResponseStatus.genericError
          else TlmResponseStatus.ok) 0
        ⟨⟨0xAA, 0xBB, 0xCC, 0, 0, 2⟩, ⟨0xAA, 0xBB, 0xCC, 0, 0, 1⟩⟩
        TlmResponseStatus.ok).respStatus = TlmResponseStatus.genericError
    ∧ (b_transport ⟨3, [], false⟩
        (fun p _ => if p = 1 then TlmResponseStatus.genericError
          else TlmResponseStatus.ok) 0
        ⟨⟨0xAA, 0xBB, 0xCC, 0, 0, 2⟩, ⟨0xAA, 0xBB, 0xCC, 0, 0, 1⟩⟩
        TlmResponseStatus.ok).lockReleased = true := by
  have h := C6_blocking_flood_early_stop_releases_lock ⟨3, [], false⟩
    (fun p _ => if p = 1 then TlmResponseStatus.genericError
      else TlmResponseStatus.ok) 0 1
    ⟨⟨0xAA, 0xBB, 0xCC, 0, 0, 2⟩, ⟨0xAA, 0xBB, 0xCC, 0, 0, 1⟩⟩
    TlmResponseStatus.ok TlmResponseStatus.genericError
    (Or.inl rfl) rfl (by decide) (by decide) (by decide) (by decide)
    (fun _ => rfl) (fun p hp s => by simp [hp])
  exact ⟨h.1, h.2.2.1, h.2.2.2.1⟩

/-- Witness for C7: on a 3-port switch flooding from port 0, egress port 1
returning `TLM_ACCEPTED` stops the non-blocking flood before port 2 and
that result is propagated to the caller. -/
theorem C7_witness :
    (nb_transport_fw ⟨3, [], false⟩
      (fun p _ => if p = 1 then (TlmSyncEnum.accepted, TlmResponseStatus.ok)
        else (TlmSyncEnum.completed, TlmResponseStatus.ok)) 0
      ⟨⟨0xAA, 0xBB, 0xCC, 0, 0, 2⟩, ⟨0xAA, 0xBB, 0xCC, 0, 0, 1⟩⟩
      false).egressCalls
      = ((List.range (1 + 1)).filter (fun p => decide (p ≠ 0))).map
          (fun p => (p, TlmPhase.beginReq))
    ∧ (nb_transport_fw ⟨3, [], false⟩
        (fun p _ => if p = 1 then (TlmSyncEnum.accepted, TlmResponseStatus.ok)
          else (TlmSyncEnum.completed, TlmResponseStatus.ok)) 0
        ⟨⟨0xAA, 0xBB, 0xCC, 0, 0, 2⟩, ⟨0xAA, 0xBB, 0xCC, 0, 0, 1⟩⟩
        false).ret
      = (if TlmSyncEnum.accepted = TlmSyncEnum.completed then
          TlmSyncEnum.completed else TlmSyncEnum.accepted) := by
  have h := C7_nb_flood_early_stop_propagates ⟨3, [], false⟩
    (fun p _ => if p = 1 then (TlmSyncEnum.accepted, TlmResponseStatus.ok)
      else (TlmSyncEnum.completed, TlmResponseStatus.ok)) 0 1
    ⟨⟨0xAA, 0xBB, 0xCC, 0, 0, 2⟩, ⟨0xAA, 0xBB, 0xCC, 0, 0, 1⟩⟩
    TlmSyncEnum.accepted TlmResponseStatus.ok
    (Or.inl rfl) rfl (by decide) (by decide) (by decide)
    (Or.inl (by decide)) (fun _ => rfl) (fun p hp s => by simp [hp])
  exact ⟨h.1, h.2.2.2.1⟩

/-- Witness for C9: with fingerprint(AA:BB:CC:00:00:01) bound to port 0, a
re-observation of that source on port 0 keeps the binding and leaves the
table unchanged on the blocking path. -/
theorem C9_witness :
    macFind (b_transport
        ⟨3, [(hashMacAddr ⟨0xAA, 0xBB, 0xCC, 0, 0, 1⟩, 0)], false⟩
        (fun _ _ => TlmResponseStatus.ok) 0
        ⟨⟨0xAA, 0xBB, 0xCC, 0, 0, 2⟩, ⟨0xAA, 0xBB, 0xCC, 0, 0, 1⟩⟩
        TlmResponseStatus.ok).dMacCache
      (hashMacAddr ⟨0xAA, 0xBB, 0xCC, 0, 0, 1⟩) = some 0
    ∧ (b_transport ⟨3, [(hashMacAddr ⟨0xAA, 0xBB, 0xCC, 0, 0, 1⟩, 0)], false⟩
        (fun _ _ => TlmResponseStatus.ok) 0
        ⟨⟨0xAA, 0xBB, 0xCC, 0, 0, 2⟩, ⟨0xAA, 0xBB, 0xCC, 0, 0, 1⟩⟩
        TlmResponseStatus.ok).dMacCache
      = [(hashMacAddr ⟨0xAA, 0xBB, 0xCC, 0, 0, 1⟩, 0)] := by
  have h := C9_table_grows_and_relearn_idempotent
    ⟨3, [(hashMacAddr ⟨0xAA, 0xBB, 0xCC, 0, 0, 1⟩, 0)], false⟩
    (fun _ _ => TlmResponseStatus.ok)
    (fun _ _ => (TlmSyncEnum.completed, TlmResponseStatus.ok)) 0
    ⟨⟨0xAA, 0xBB, 0xCC, 0, 0, 2⟩, ⟨0xAA, 0xBB, 0xCC, 0, 0, 1⟩⟩
    TlmResponseStatus.ok false (hashMacAddr ⟨0xAA, 0xBB, 0xCC, 0, 0, 1⟩) 0
    (by decide)
  exact ⟨h.1, (h.2.2 rfl rfl).1⟩

/-- Witness for C10: with the destination fingerprint bound to the ingress
port 0 itself, the frame is unicast back out port 0 on both paths. -/
theorem C10_witness :
    (b_transport ⟨3, [(hashMacAddr ⟨0xAA, 0xBB, 0xCC, 0, 0, 1⟩, 0)], false⟩
      (fun _ _ => TlmResponseStatus.ok) 0
      ⟨⟨0xAA, 0xBB, 0xCC, 0, 0, 1⟩, ⟨0xAA, 0xBB, 0xCC, 0, 0, 2⟩⟩
      TlmResponseStatus.ok).egressCalls = [0]
    ∧ (nb_transport_fw ⟨3, [(hashMacAddr ⟨0xAA, 0xBB, 0xCC, 0, 0, 1⟩, 0)], false⟩
        (fun _ _ => (TlmSyncEnum.completed, TlmResponseStatus.ok)) 0
        ⟨⟨0xAA, 0xBB, 0xCC, 0, 0, 1⟩, ⟨0xAA, 0xBB, 0xCC, 0, 0, 2⟩⟩
        false).egressCalls = [(0, TlmPhase.beginReq)] := by
  have h := C10_dest_bound_to_ingress_reflects
    ⟨3, [(hashMacAddr ⟨0xAA, 0xBB, 0xCC, 0, 0, 1⟩, 0)], false⟩
    (fun _ _ => TlmResponseStatus.ok)
    (fun _ _ => (TlmSyncEnum.completed, TlmResponseStatus.ok)) 0
    ⟨⟨0xAA, 0xBB, 0xCC, 0, 0, 1⟩, ⟨0xAA, 0xBB, 0xCC, 0, 0, 2⟩⟩
    TlmResponseStatus.ok (Or.inl (by decide)) (by decide)
  exact ⟨h.1, h.2.1⟩
